import Mathlib

/-!
Verification of the JSON → Graphviz visualizer (`graph_app.py`).

The source walks a parsed JSON value and writes Graphviz DOT text into a
string buffer (`StringIO`).  We embed the walk shallowly: the JSON value is
the inductive `Json`; each `buf.write` group belonging to one DOT statement
becomes one `Stmt`; `render` reproduces the exact text the source writes for
a statement, so the final document is the concatenation of the rendered
statements in emission order.  Machine strings are Lean `String`s
(lists of characters); the counter is a `Nat`.
-/

/-- JSON values as produced by `json.load`.  Numbers are modelled as
integers (the claims under scrutiny do not involve float formatting). -/
inductive Json where
  | null : Json
  | bool (b : Bool) : Json
  | num (n : Int) : Json
  | str (s : String) : Json
  | arr (items : List Json) : Json
  | obj (fields : List (String × Json)) : Json

/-- `isinstance(data, (dict, list))` — the composite test used throughout. -/
def isComposite : Json → Bool
  | .arr _ => true
  | .obj _ => true
  | _ => false

/-- The apostrophe character (written by code point to keep sources plain). -/
def apos : Char := Char.ofNat 39

/-- Character of a decimal digit. -/
def digitCh (d : Nat) : Char := Char.ofNat (48 + d)

/-- Decimal digits of `n`, most significant first; fuel-indexed model of the
`%d` rendering (empty for `0`, callers handle that case). -/
def decStrAux : Nat → Nat → List Char
  | 0, _ => []
  | fuel + 1, n => if n = 0 then [] else decStrAux fuel (n / 10) ++ [digitCh (n % 10)]

/-- Decimal rendering of a natural number, as Python `str` produces it. -/
def decStr0 (n : Nat) : List Char := if n = 0 then [Char.ofNat 48] else decStrAux n n

/-- `str(i)` for a nonnegative index. -/
def natStr (n : Nat) : String := ⟨decStr0 n⟩

/-- `str(i)` for a Python int. -/
def intStr (i : Int) : String :=
  if i < 0 then ⟨Char.ofNat 45 :: decStr0 i.natAbs⟩ else ⟨decStr0 i.natAbs⟩

/-- Python `str(data)` on values coming out of `json.load`: strings pass
through unchanged, ints render in decimal, `True`/`False`/`None` use the
Python spellings.  The walk only applies this to scalars (composites are
guarded by `isComposite` first), so the composite branches are irrelevant
placeholders. -/
def pyStr : Json → String
  | .null => "None"
  | .bool b => if b then "True" else "False"
  | .num i => intStr i
  | .str s => s
  | .arr _ => ""
  | .obj _ => ""

/-- Per-character expansion of `html.escape(s)` (with its default
`quote=True`): `&`, `<`, `>`, `"` and the apostrophe become entities. -/
def escChar (c : Char) : List Char :=
  if c = '&' then "&amp;".data
  else if c = '<' then "&lt;".data
  else if c = '>' then "&gt;".data
  else if c = '"' then "&quot;".data
  else if c = apos then "&#x27;".data
  else [c]

/-- `html.escape` over a character list. -/
def escL : List Char → List Char
  | [] => []
  | c :: rest => escChar c ++ escL rest

/-- `html.escape(s)` with `quote=True`, the escaping used for every key and
scalar cell/label the walk emits. -/
def escape (s : String) : String := ⟨escL s.data⟩

/-- `"&nbsp;"*4`, the blank placeholder cell used for composite children. -/
def nbsp4 : String := "&nbsp;&nbsp;&nbsp;&nbsp;"

/-- Cell text for a child value: blank padding when the child is composite,
otherwise the escaped `str` rendering
(`"&nbsp;"*4 if isinstance(v,(dict,list)) else html.escape(str(v))`). -/
def cellFor (v : Json) : String := if isComposite v then nbsp4 else escape (pyStr v)

/-- Zero-pad a digit string on the left to width `w`. -/
def padZeros (w : Nat) (l : List Char) : List Char :=
  List.replicate (w - l.length) (Char.ofNat 48) ++ l

/-- `_next(n)` = `f"N{n:04d}"`: `N` followed by the counter zero-padded to
four digits, widening naturally beyond 9999. -/
def _next (n : Nat) : String := ⟨'N' :: padZeros 4 (decStr0 n)⟩

/-- One table row: the left cell's text and the right (ported) cell's text.
The port index is the row's position in the table. -/
structure Row where
  label : String
  cell : String
deriving DecidableEq, Repr

/-- One emitted DOT statement of `_to_dot`: a table-shaped node (an HTML
label; `isList` selects the list-row or dict-row cell markup; an empty row
list renders as the single blank spanning row), a scalar label node, or an
edge. -/
inductive Stmt where
  | nodeTable (name : String) (isList : Bool) (rows : List Row) : Stmt
  | nodeScalar (name : String) (label : String) : Stmt
  | edge (src dst : String) : Stmt
deriving DecidableEq, Repr

mutual

/-- `_to_dot(parent, data, idx, buf)`: returns the final counter value and
the list of statements this call wrote, in emission order (node, its edge
from the parent anchor, then the composite children's statements). -/
def _to_dot (parent : String) (data : Json) (idx : Nat) : Nat × List Stmt :=
  match data with
  | .arr items =>
      let name := _next idx
      let res := toDotItems name items 0 idx
      (res.1,
        Stmt.nodeTable name true
          ((items.enum).map (fun p => Row.mk (natStr p.1) (cellFor p.2)))
          :: Stmt.edge parent name :: res.2)
  | .obj fields =>
      let name := _next idx
      let res := toDotFields name fields 0 idx
      (res.1,
        Stmt.nodeTable name false
          ((fields.enum).map (fun p => Row.mk (escape p.2.1) (cellFor p.2.2)))
          :: Stmt.edge parent name :: res.2)
  | s => (idx, [Stmt.nodeScalar (_next idx) (escape (pyStr s)), Stmt.edge parent (_next idx)])
termination_by sizeOf data

/-- The list branch's recursion loop: for each item, if it is composite,
recurse anchored at `name:p_i` with counter `idx+1`, threading the returned
counter on. -/
def toDotItems (name : String) (items : List Json) (i idx : Nat) : Nat × List Stmt :=
  match items with
  | [] => (idx, [])
  | item :: rest =>
      if isComposite item then
        let r1 := _to_dot (name ++ ":p_" ++ natStr i) item (idx + 1)
        let r2 := toDotItems name rest (i + 1) r1.1
        (r2.1, r1.2 ++ r2.2)
      else toDotItems name rest (i + 1) idx
termination_by sizeOf items

/-- The dict branch's recursion loop over `data.values()`. -/
def toDotFields (name : String) (fields : List (String × Json)) (i idx : Nat) : Nat × List Stmt :=
  match fields with
  | [] => (idx, [])
  | (_, v) :: rest =>
      if isComposite v then
        let r1 := _to_dot (name ++ ":p_" ++ natStr i) v (idx + 1)
        let r2 := toDotFields name rest (i + 1) r1.1
        (r2.1, r1.2 ++ r2.2)
      else toDotFields name rest (i + 1) idx
termination_by sizeOf fields

end

/-- The text of one table row, exactly as the source writes it: list rows
use `<TD BORDER="0">` for the index cell, dict rows a plain `<TD>`; `i` is
the row's position and feeds the `PORT` suffix. -/
def renderRow (isList : Bool) (i : Nat) (r : Row) : String :=
  if isList then
    "<TR><TD BORDER=\"0\">" ++ r.label ++ "</TD><TD PORT=\"p_" ++ natStr i ++ "\">"
      ++ r.cell ++ "</TD></TR>\n"
  else
    "<TR><TD>" ++ r.label ++ "</TD><TD PORT=\"p_" ++ natStr i ++ "\">"
      ++ r.cell ++ "</TD></TR>\n"

/-- The exact text the source writes for one statement.  An empty row list
renders as the single blank spanning row
`<TR><TD COLSPAN="2">&nbsp;</TD></TR>`. -/
def render : Stmt → String
  | .nodeTable name isList rows =>
      name ++ " [label=<\n<TABLE BORDER=\"0\" CELLBORDER=\"1\" CELLSPACING=\"0\">\n"
        ++ (if rows.isEmpty then "<TR><TD COLSPAN=\"2\">&nbsp;</TD></TR>\n"
            else String.join ((rows.enum).map (fun p => renderRow isList p.1 p.2)))
        ++ "</TABLE>>];\n"
  | .nodeScalar name label => name ++ " [label=\"" ++ label ++ "\"];\n"
  | .edge src dst => src ++ "->" ++ dst ++ ";\n"

/-- Concatenation of the rendered statements, the body text `_to_dot` leaves
in the buffer. -/
def renderStmts (stmts : List Stmt) : String := String.join (stmts.map render)

/-- The configured font name. -/
def FONT : String := "Noto Sans CJK JP"

/-- The fixed opening lines `json2graph` writes before the root node. -/
def dotHeader : String :=
  "digraph G \x7b\n"
    ++ "  graph [rankdir=LR, fontname=\"" ++ FONT ++ "\", charset=\"UTF-8\"];\n"
    ++ "  node  [shape=plaintext, fontname=\"" ++ FONT ++ "\"];\n"
    ++ "  edge  [fontname=\"" ++ FONT ++ "\"];\n"

/-- The synthetic root node's statement: the user-supplied label is
interpolated directly into the quoted `label` attribute. -/
def rootStmt (root_label : String) : String :=
  "  root [label=\"" ++ root_label ++ "\", shape=circle, fontname=\"" ++ FONT ++ "\"];\n"

/-- The complete DOT document `json2graph` builds before invoking the
renderer. -/
def json2graphDot (json_data : Json) (root_label : String) : String :=
  dotHeader ++ rootStmt root_label
    ++ renderStmts (_to_dot "root" json_data 0).2 ++ "\x7d\n"

/-- Decoder for the five entities `html.escape` produces; models the
standard escape-decoding (`html.unescape`) on the escape's image. -/
def unescapeL : List Char → List Char
  | '&' :: 'a' :: 'm' :: 'p' :: ';' :: r => '&' :: unescapeL r
  | '&' :: 'l' :: 't' :: ';' :: r => '<' :: unescapeL r
  | '&' :: 'g' :: 't' :: ';' :: r => '>' :: unescapeL r
  | '&' :: 'q' :: 'u' :: 'o' :: 't' :: ';' :: r => '"' :: unescapeL r
  | '&' :: '#' :: 'x' :: '2' :: '7' :: ';' :: r => apos :: unescapeL r
  | c :: rest => c :: unescapeL rest
  | [] => []

/-- String-level escape decoding. -/
def unescape (s : String) : String := ⟨unescapeL s.data⟩

/-- `true` iff the text contains no raw `<`, `>` or `"` and every `&` starts
one of the five entities `html.escape` emits — i.e. no unescaped occurrence
of a markup metacharacter remains. -/
def wellEscapedL : List Char → Bool
  | '&' :: 'a' :: 'm' :: 'p' :: ';' :: r => wellEscapedL r
  | '&' :: 'l' :: 't' :: ';' :: r => wellEscapedL r
  | '&' :: 'g' :: 't' :: ';' :: r => wellEscapedL r
  | '&' :: 'q' :: 'u' :: 'o' :: 't' :: ';' :: r => wellEscapedL r
  | '&' :: '#' :: 'x' :: '2' :: '7' :: ';' :: r => wellEscapedL r
  | '&' :: _ => false
  | c :: rest => if c = '<' ∨ c = '>' ∨ c = '"' then false else wellEscapedL rest
  | [] => true

/-- String-level well-escapedness. -/
def wellEscaped (s : String) : Bool := wellEscapedL s.data

/-- The node identifiers of the emitted statements, in emission order. -/
def nodeNames : List Stmt → List String
  | [] => []
  | .nodeTable n _ _ :: rest => n :: nodeNames rest
  | .nodeScalar n _ :: rest => n :: nodeNames rest
  | .edge _ _ :: rest => nodeNames rest

/-- Number of edge statements. -/
def countEdges : List Stmt → Nat
  | [] => 0
  | .edge _ _ :: rest => countEdges rest + 1
  | _ :: rest => countEdges rest

/-- Number of table-shaped (composite) node statements. -/
def countTableNodes : List Stmt → Nat
  | [] => 0
  | .nodeTable _ _ _ :: rest => countTableNodes rest + 1
  | _ :: rest => countTableNodes rest

/-- Number of scalar label node statements. -/
def countScalarNodes : List Stmt → Nat
  | [] => 0
  | .nodeScalar _ _ :: rest => countScalarNodes rest + 1
  | _ :: rest => countScalarNodes rest

/-- All table cell texts, in order. -/
def cellsOf : List Stmt → List String
  | [] => []
  | .nodeTable _ _ rows :: rest => rows.map Row.cell ++ cellsOf rest
  | _ :: rest => cellsOf rest

/-- Character-list prefix test (own definition, kernel-reducible). -/
def chStarts : List Char → List Char → Bool
  | [], _ => true
  | _ :: _, [] => false
  | a :: as, b :: bs => a = b && chStarts as bs

/-- The edge statements whose source is the given node or one of its row
ports (`name` or `name:p_i`). -/
def edgesFrom (name : String) (stmts : List Stmt) : List Stmt :=
  stmts.filter fun s =>
    match s with
    | .edge src _ => chStarts name.data src.data
    | _ => false

mutual

/-- Number of composite (object/array) values in a JSON tree. -/
def composites : Json → Nat
  | .arr items => compositesL items + 1
  | .obj fields => compositesF fields + 1
  | _ => 0
termination_by j => sizeOf j

/-- Sum of `composites` over a list of values. -/
def compositesL : List Json → Nat
  | [] => 0
  | j :: rest => composites j + compositesL rest
termination_by l => sizeOf l

/-- Sum of `composites` over an object's field values. -/
def compositesF : List (String × Json) → Nat
  | [] => 0
  | (_, v) :: rest => composites v + compositesF rest
termination_by l => sizeOf l

end

mutual

/-- Number of scalar values in a JSON tree. -/
def scalars : Json → Nat
  | .arr items => scalarsL items
  | .obj fields => scalarsF fields
  | _ => 1
termination_by j => sizeOf j

/-- Sum of `scalars` over a list of values. -/
def scalarsL : List Json → Nat
  | [] => 0
  | j :: rest => scalars j + scalarsL rest
termination_by l => sizeOf l

/-- Sum of `scalars` over an object's field values. -/
def scalarsF : List (String × Json) → Nat
  | [] => 0
  | (_, v) :: rest => scalars v + scalarsF rest
termination_by l => sizeOf l

end

/-- `1` when the top-level value is scalar (it then becomes a label node),
else `0`. -/
def scalarTop (j : Json) : Nat := if isComposite j then 0 else 1

/-- Total number of node statements one build over `j` emits. -/
def nNodes (j : Json) : Nat := composites j + scalarTop j

/-- Configuration of one `subprocess.run` invocation, the renderer
adapter's call record: argument vector, text mode, `check` flag and the
`timeout` parameter (Python's default is `None` when the keyword is
omitted). -/
structure RunCall where
  args : List String
  inputText : Bool
  check : Bool
  timeout : Option Nat
deriving DecidableEq, Repr

/-- `subprocess.run(["dot", "-Tpng", "-o", png_path], input=dot_input,
text=True, check=True)` — the PNG rendering call; no `timeout` keyword is
passed. -/
def pngRun (png_path : String) : RunCall :=
  { args := ["dot", "-Tpng", "-o", png_path], inputText := true, check := true,
    timeout := none }

/-- `subprocess.run(["dot", "-Tsvg", "-o", svg_path], input=dot_input,
text=True, check=True)` — the SVG rendering call; no `timeout` keyword is
passed. -/
def svgRun (svg_path : String) : RunCall :=
  { args := ["dot", "-Tsvg", "-o", svg_path], inputText := true, check := true,
    timeout := none }

mutual

/-- Modelled from the spec: the repository source contains no path-graph
builder (`build_path_graph`); section 4.3 of the design describes it.  At a
call with `parent_path` and a value: an object adds, per field `(k, v)`, a
node for `parent_path.k` labelled `k` and an edge from `parent_path`, then
recurses into `v`; an array uses `parent_path[i]`; a scalar adds a leaf node
`parent_path:stringify(value)` with an edge and stops. -/
def pathWalk (parentPath : String) (v : Json) : List (String × String) × List (String × String) :=
  match v with
  | .obj fields => pathFields parentPath fields
  | .arr items => pathItems parentPath items 0
  | s =>
      (((parentPath ++ ":" ++ pyStr s), pyStr s) :: [],
        [(parentPath, parentPath ++ ":" ++ pyStr s)])
termination_by sizeOf v

/-- Modelled from the spec: the object loop of the path-graph walk. -/
def pathFields (parentPath : String) (fields : List (String × Json)) :
    List (String × String) × List (String × String) :=
  match fields with
  | [] => ([], [])
  | (k, v) :: rest =>
      let child := parentPath ++ "." ++ k
      let r := pathWalk child v
      let rr := pathFields parentPath rest
      ((child, k) :: r.1 ++ rr.1, (parentPath, child) :: r.2 ++ rr.2)
termination_by sizeOf fields

/-- Modelled from the spec: the array loop of the path-graph walk. -/
def pathItems (parentPath : String) (items : List Json) (i : Nat) :
    List (String × String) × List (String × String) :=
  match items with
  | [] => ([], [])
  | item :: rest =>
      let child := parentPath ++ "[" ++ natStr i ++ "]"
      let r := pathWalk child item
      let rr := pathItems parentPath rest (i + 1)
      ((child, "[" ++ natStr i ++ "]") :: r.1 ++ rr.1, (parentPath, child) :: r.2 ++ rr.2)
termination_by sizeOf items

end

/-- Modelled from the spec: `build_path_graph(value) -> (nodes, edges)`,
with the root seeded as node `root` before the walk begins. -/
def build_path_graph (v : Json) : List (String × String) × List (String × String) :=
  let r := pathWalk "root" v
  (("root", "root") :: r.1, r.2)

/-! Helper lemmas. -/

@[simp] theorem nodeNames_append (a b : List Stmt) :
    nodeNames (a ++ b) = nodeNames a ++ nodeNames b := by
  induction a with
  | nil => rfl
  | cons s rest ih => cases s <;> simp [nodeNames, ih]

@[simp] theorem countEdges_append (a b : List Stmt) :
    countEdges (a ++ b) = countEdges a + countEdges b := by
  induction a with
  | nil => simp [countEdges]
  | cons s rest ih => cases s <;> (simp [countEdges, ih]; try omega)

@[simp] theorem countTableNodes_append (a b : List Stmt) :
    countTableNodes (a ++ b) = countTableNodes a + countTableNodes b := by
  induction a with
  | nil => simp [countTableNodes]
  | cons s rest ih => cases s <;> (simp [countTableNodes, ih]; try omega)

@[simp] theorem countScalarNodes_append (a b : List Stmt) :
    countScalarNodes (a ++ b) = countScalarNodes a + countScalarNodes b := by
  induction a with
  | nil => simp [countScalarNodes]
  | cons s rest ih => cases s <;> (simp [countScalarNodes, ih]; try omega)

/-- Numeric value of a digit character. -/
def dval (c : Char) : Nat := c.toNat - 48

/-- Value of a big-endian digit string. -/
def valL (l : List Char) : Nat := l.foldl (fun a c => a * 10 + dval c) 0

theorem valL_append_singleton (l : List Char) (c : Char) :
    valL (l ++ [c]) = valL l * 10 + dval c := by
  simp [valL, List.foldl_append]

theorem dval_digitCh : ∀ d, d < 10 → dval (digitCh d) = d := by decide

theorem valL_decStrAux : ∀ fuel n, n ≤ fuel → valL (decStrAux fuel n) = n := by
  intro fuel
  induction fuel with
  | zero =>
      intro n h
      have : n = 0 := Nat.le_zero.mp h
      subst this
      simp [decStrAux, valL]
  | succ fuel ih =>
      intro n h
      by_cases h0 : n = 0
      · subst h0; simp [decStrAux, valL]
      · rw [decStrAux, if_neg h0, valL_append_singleton,
          dval_digitCh (n % 10) (Nat.mod_lt _ (by norm_num)),
          ih (n / 10) (by omega)]
        omega

theorem valL_decStr0 (n : Nat) : valL (decStr0 n) = n := by
  by_cases h : n = 0
  · subst h; decide
  · simp [decStr0, h, valL_decStrAux n n le_rfl]

theorem foldl_val_zeros : ∀ k : Nat,
    List.foldl (fun a c => a * 10 + dval c) 0 (List.replicate k (Char.ofNat 48)) = 0 := by
  intro k
  induction k with
  | zero => rfl
  | succ k ih => simpa [List.replicate] using ih

theorem valL_padZeros (w : Nat) (l : List Char) : valL (padZeros w l) = valL l := by
  simp [padZeros, valL, List.foldl_append, foldl_val_zeros]

/-- `_next` never repeats: the identifier determines the counter value. -/
theorem next_injective : Function.Injective _next := by
  intro m n h
  have hd : 'N' :: padZeros 4 (decStr0 m) = 'N' :: padZeros 4 (decStr0 n) :=
    congrArg String.data h
  have hp : padZeros 4 (decStr0 m) = padZeros 4 (decStr0 n) := by
    injection hd
  have := congrArg valL hp
  rwa [valL_padZeros, valL_padZeros, valL_decStr0, valL_decStr0] at this

set_option maxHeartbeats 1600000 in
theorem unescapeL_cons_plain (c : Char) (l : List Char) (h : c ≠ '&') :
    unescapeL (c :: l) = c :: unescapeL l := by
  rw [unescapeL.eq_def]
  split <;> simp_all

set_option maxHeartbeats 1600000 in
theorem wellEscapedL_cons_plain (c : Char) (l : List Char) (h1 : c ≠ '&') (h2 : c ≠ '<')
    (h3 : c ≠ '>') (h4 : c ≠ '"') :
    wellEscapedL (c :: l) = wellEscapedL l := by
  rw [wellEscapedL.eq_def]
  split <;> simp_all

theorem unescapeL_escChar (c : Char) (l : List Char) :
    unescapeL (escChar c ++ l) = c :: unescapeL l := by
  by_cases h1 : c = '&'
  · subst h1; rfl
  by_cases h2 : c = '<'
  · subst h2; rfl
  by_cases h3 : c = '>'
  · subst h3; rfl
  by_cases h4 : c = '"'
  · subst h4; rfl
  by_cases h5 : c = apos
  · subst h5; rfl
  · rw [escChar, if_neg h1, if_neg h2, if_neg h3, if_neg h4, if_neg h5]
    exact unescapeL_cons_plain c l h1

theorem wellEscapedL_escChar (c : Char) (l : List Char) :
    wellEscapedL (escChar c ++ l) = wellEscapedL l := by
  by_cases h1 : c = '&'
  · subst h1; rfl
  by_cases h2 : c = '<'
  · subst h2; rfl
  by_cases h3 : c = '>'
  · subst h3; rfl
  by_cases h4 : c = '"'
  · subst h4; rfl
  by_cases h5 : c = apos
  · subst h5; rfl
  · rw [escChar, if_neg h1, if_neg h2, if_neg h3, if_neg h4, if_neg h5]
    exact wellEscapedL_cons_plain c l h1 h2 h3 h4

theorem unescapeL_escL (l : List Char) : unescapeL (escL l) = l := by
  induction l with
  | nil => rfl
  | cons c rest ih => rw [escL, unescapeL_escChar, ih]

theorem wellEscapedL_escL (l : List Char) : wellEscapedL (escL l) = true := by
  induction l with
  | nil => rfl
  | cons c rest ih => rw [escL, wellEscapedL_escChar, ih]

theorem unescape_escape (s : String) : unescape (escape s) = s := by
  show String.mk (unescapeL (escL s.data)) = s
  rw [unescapeL_escL]

theorem wellEscaped_escape (s : String) : wellEscaped (escape s) = true :=
  wellEscapedL_escL s.data

theorem composites_of_scalar (j : Json) (h : isComposite j = false) : composites j = 0 := by
  cases j <;> simp_all [isComposite, composites]

theorem nNodes_of_composite (j : Json) (h : isComposite j = true) :
    nNodes j = composites j := by
  simp [nNodes, scalarTop, h]

theorem composites_arr (items : List Json) :
    composites (Json.arr items) = compositesL items + 1 := by
  rw [composites]

theorem composites_obj (fields : List (String × Json)) :
    composites (Json.obj fields) = compositesF fields + 1 := by
  rw [composites]

theorem scalarTop_arr (items : List Json) : scalarTop (Json.arr items) = 0 := rfl

theorem scalarTop_obj (fields : List (String × Json)) : scalarTop (Json.obj fields) = 0 := rfl

theorem nNodes_arr (items : List Json) :
    nNodes (Json.arr items) = compositesL items + 1 := by
  rw [nNodes, composites_arr, scalarTop_arr]

theorem nNodes_obj (fields : List (String × Json)) :
    nNodes (Json.obj fields) = compositesF fields + 1 := by
  rw [nNodes, composites_obj, scalarTop_obj]

theorem one_le_nNodes (j : Json) : 1 ≤ nNodes j := by
  cases j <;> simp [nNodes_arr, nNodes_obj, nNodes, composites, scalarTop, isComposite]

mutual

theorem toDot_shape (parent : String) (j : Json) (idx : Nat) :
    (_to_dot parent j idx).1 + 1 = idx + nNodes j ∧
    nodeNames (_to_dot parent j idx).2 = (List.range' idx (nNodes j)).map _next ∧
    countEdges (_to_dot parent j idx).2 = nNodes j ∧
    countTableNodes (_to_dot parent j idx).2 = composites j ∧
    countScalarNodes (_to_dot parent j idx).2 = scalarTop j := by
  cases j with
  | arr items =>
      obtain ⟨h1, h2, h3, h4, h5⟩ := toDotItems_shape (_next idx) items 0 idx
      have step : _to_dot parent (Json.arr items) idx
          = ((toDotItems (_next idx) items 0 idx).1,
             Stmt.nodeTable (_next idx) true
               ((items.enum).map (fun p => Row.mk (natStr p.1) (cellFor p.2)))
               :: Stmt.edge parent (_next idx)
               :: (toDotItems (_next idx) items 0 idx).2) := by
        simp [_to_dot]
      rw [step]
      refine ⟨?_, ?_, ?_, ?_, ?_⟩
      · rw [nNodes_arr]; omega
      · simp only [nodeNames]
        rw [h2, nNodes_arr, List.range'_succ, List.map_cons]
      · simp only [countEdges]
        rw [h3, nNodes_arr]
      · simp only [countTableNodes]
        rw [h4, composites_arr]
      · simp only [countScalarNodes]
        rw [h5, scalarTop_arr]
  | obj fields =>
      obtain ⟨h1, h2, h3, h4, h5⟩ := toDotFields_shape (_next idx) fields 0 idx
      have step : _to_dot parent (Json.obj fields) idx
          = ((toDotFields (_next idx) fields 0 idx).1,
             Stmt.nodeTable (_next idx) false
               ((fields.enum).map (fun p => Row.mk (escape p.2.1) (cellFor p.2.2)))
               :: Stmt.edge parent (_next idx)
               :: (toDotFields (_next idx) fields 0 idx).2) := by
        simp [_to_dot]
      rw [step]
      refine ⟨?_, ?_, ?_, ?_, ?_⟩
      · rw [nNodes_obj]; omega
      · simp only [nodeNames]
        rw [h2, nNodes_obj, List.range'_succ, List.map_cons]
      · simp only [countEdges]
        rw [h3, nNodes_obj]
      · simp only [countTableNodes]
        rw [h4, composites_obj]
      · simp only [countScalarNodes]
        rw [h5, scalarTop_obj]
  | null =>
      simp [_to_dot, nodeNames, countEdges, countTableNodes, countScalarNodes,
        nNodes, composites, scalarTop, isComposite]
  | bool b =>
      simp [_to_dot, nodeNames, countEdges, countTableNodes, countScalarNodes,
        nNodes, composites, scalarTop, isComposite]
  | num n =>
      simp [_to_dot, nodeNames, countEdges, countTableNodes, countScalarNodes,
        nNodes, composites, scalarTop, isComposite]
  | str s =>
      simp [_to_dot, nodeNames, countEdges, countTableNodes, countScalarNodes,
        nNodes, composites, scalarTop, isComposite]
termination_by sizeOf j

theorem toDotItems_shape (name : String) (items : List Json) (i idx : Nat) :
    (toDotItems name items i idx).1 = idx + compositesL items ∧
    nodeNames (toDotItems name items i idx).2
      = (List.range' (idx + 1) (compositesL items)).map _next ∧
    countEdges (toDotItems name items i idx).2 = compositesL items ∧
    countTableNodes (toDotItems name items i idx).2 = compositesL items ∧
    countScalarNodes (toDotItems name items i idx).2 = 0 := by
  cases items with
  | nil => simp [toDotItems, compositesL, nodeNames, countEdges, countTableNodes,
      countScalarNodes]
  | cons item rest =>
      have hL : compositesL (item :: rest) = composites item + compositesL rest := by
        rw [compositesL]
      cases hc : isComposite item with
      | true =>
          obtain ⟨a1, a2, a3, a4, a5⟩ :=
            toDot_shape (name ++ ":p_" ++ natStr i) item (idx + 1)
          obtain ⟨b1, b2, b3, b4, b5⟩ :=
            toDotItems_shape name rest (i + 1)
              (_to_dot (name ++ ":p_" ++ natStr i) item (idx + 1)).1
          rw [nNodes_of_composite item hc] at a1 a2 a3
          have hs : scalarTop item = 0 := by simp [scalarTop, hc]
          rw [hs] at a5
          have step : toDotItems name (item :: rest) i idx
              = ((toDotItems name rest (i + 1)
                    (_to_dot (name ++ ":p_" ++ natStr i) item (idx + 1)).1).1,
                 (_to_dot (name ++ ":p_" ++ natStr i) item (idx + 1)).2
                   ++ (toDotItems name rest (i + 1)
                        (_to_dot (name ++ ":p_" ++ natStr i) item (idx + 1)).1).2) := by
            simp [toDotItems, hc]
          rw [step]
          refine ⟨?_, ?_, ?_, ?_, ?_⟩
          · rw [hL]; omega
          · rw [nodeNames_append, a2, b2, hL]
            have hx : (_to_dot (name ++ ":p_" ++ natStr i) item (idx + 1)).1 + 1
                = idx + 1 + composites item := by omega
            rw [hx, ← List.map_append, List.range'_append_1,
              Nat.add_comm (compositesL rest) (composites item)]
          · rw [countEdges_append, a3, b3, hL]
          · rw [countTableNodes_append, a4, b4, hL]
          · rw [countScalarNodes_append, a5, b5]
      | false =>
          obtain ⟨b1, b2, b3, b4, b5⟩ := toDotItems_shape name rest (i + 1) idx
          have hz := composites_of_scalar item hc
          have step : toDotItems name (item :: rest) i idx
              = toDotItems name rest (i + 1) idx := by
            simp [toDotItems, hc]
          rw [step, hL, hz, b1, b2, b3, b4, b5]
          simp
termination_by sizeOf items

theorem toDotFields_shape (name : String) (fields : List (String × Json)) (i idx : Nat) :
    (toDotFields name fields i idx).1 = idx + compositesF fields ∧
    nodeNames (toDotFields name fields i idx).2
      = (List.range' (idx + 1) (compositesF fields)).map _next ∧
    countEdges (toDotFields name fields i idx).2 = compositesF fields ∧
    countTableNodes (toDotFields name fields i idx).2 = compositesF fields ∧
    countScalarNodes (toDotFields name fields i idx).2 = 0 := by
  cases fields with
  | nil => simp [toDotFields, compositesF, nodeNames, countEdges, countTableNodes,
      countScalarNodes]
  | cons kv rest =>
      obtain ⟨k, v⟩ := kv
      have hL : compositesF ((k, v) :: rest) = composites v + compositesF rest := by
        rw [compositesF]
      cases hc : isComposite v with
      | true =>
          obtain ⟨a1, a2, a3, a4, a5⟩ :=
            toDot_shape (name ++ ":p_" ++ natStr i) v (idx + 1)
          obtain ⟨b1, b2, b3, b4, b5⟩ :=
            toDotFields_shape name rest (i + 1)
              (_to_dot (name ++ ":p_" ++ natStr i) v (idx + 1)).1
          rw [nNodes_of_composite v hc] at a1 a2 a3
          have hs : scalarTop v = 0 := by simp [scalarTop, hc]
          rw [hs] at a5
          have step : toDotFields name ((k, v) :: rest) i idx
              = ((toDotFields name rest (i + 1)
                    (_to_dot (name ++ ":p_" ++ natStr i) v (idx + 1)).1).1,
                 (_to_dot (name ++ ":p_" ++ natStr i) v (idx + 1)).2
                   ++ (toDotFields name rest (i + 1)
                        (_to_dot (name ++ ":p_" ++ natStr i) v (idx + 1)).1).2) := by
            simp [toDotFields, hc]
          rw [step]
          refine ⟨?_, ?_, ?_, ?_, ?_⟩
          · rw [hL]; omega
          · rw [nodeNames_append, a2, b2, hL]
            have hx : (_to_dot (name ++ ":p_" ++ natStr i) v (idx + 1)).1 + 1
                = idx + 1 + composites v := by omega
            rw [hx, ← List.map_append, List.range'_append_1,
              Nat.add_comm (compositesF rest) (composites v)]
          · rw [countEdges_append, a3, b3, hL]
          · rw [countTableNodes_append, a4, b4, hL]
          · rw [countScalarNodes_append, a5, b5]
      | false =>
          obtain ⟨b1, b2, b3, b4, b5⟩ := toDotFields_shape name rest (i + 1) idx
          have hz := composites_of_scalar v hc
          have step : toDotFields name ((k, v) :: rest) i idx
              = toDotFields name rest (i + 1) idx := by
            simp [toDotFields, hc]
          rw [step, hL, hz, b1, b2, b3, b4, b5]
          simp
termination_by sizeOf fields

end

/-! The claims. -/

/-- C1: in one build no two emitted node identifiers are equal, and
identifiers are assigned in pre-order: a subtree entered with counter `idx`
emits exactly the identifiers from `_next idx` up to `_next ret` (`ret` the
returned counter), its own node's identifier `_next idx` — the least —
coming first; and a children loop entered with counter `idx2` hands out
exactly the contiguous block starting at `idx2 + 1`, so sibling composite
children receive strictly increasing identifier blocks in iteration
order. -/
theorem c1_identifier_uniqueness_preorder :
    ∀ (parent : String) (j : Json) (idx : Nat),
      idx ≤ (_to_dot parent j idx).1 ∧
      nodeNames (_to_dot parent j idx).2
        = (List.range' idx ((_to_dot parent j idx).1 + 1 - idx)).map _next ∧
      (nodeNames (_to_dot parent j idx).2).Nodup ∧
      (nodeNames (_to_dot parent j idx).2).head? = some (_next idx) ∧
      (∀ (name : String) (items : List Json) (i idx2 : Nat),
        idx2 ≤ (toDotItems name items i idx2).1 ∧
        nodeNames (toDotItems name items i idx2).2
          = (List.range' (idx2 + 1) ((toDotItems name items i idx2).1 - idx2)).map _next) ∧
      (∀ (name : String) (fields : List (String × Json)) (i idx2 : Nat),
        idx2 ≤ (toDotFields name fields i idx2).1 ∧
        nodeNames (toDotFields name fields i idx2).2
          = (List.range' (idx2 + 1) ((toDotFields name fields i idx2).1 - idx2)).map _next) := by
  intro parent j idx
  obtain ⟨h1, h2, h3, h4, h5⟩ := toDot_shape parent j idx
  have hn1 := one_le_nNodes j
  have hcount : (_to_dot parent j idx).1 + 1 - idx = nNodes j := by omega
  refine ⟨by omega, by rw [hcount, h2], ?_, ?_, ?_, ?_⟩
  · rw [h2]
    exact List.Nodup.map next_injective (List.nodup_range' idx (nNodes j))
  · obtain ⟨k, hk⟩ : ∃ k, nNodes j = k + 1 := ⟨nNodes j - 1, by omega⟩
    rw [h2, hk, List.range'_succ, List.map_cons]
    rfl
  · intro name items i idx2
    obtain ⟨g1, g2, g3, g4, g5⟩ := toDotItems_shape name items i idx2
    have hd : (toDotItems name items i idx2).1 - idx2 = compositesL items := by omega
    exact ⟨by omega, by rw [hd, g2]⟩
  · intro name fields i idx2
    obtain ⟨g1, g2, g3, g4, g5⟩ := toDotFields_shape name fields i idx2
    have hd : (toDotFields name fields i idx2).1 - idx2 = compositesF fields := by omega
    exact ⟨by omega, by rw [hd, g2]⟩

/-- C2 (amended): every build terminates (the walk is a total function) and
emits exactly one table node per composite value, a scalar label node only
when the top-level value itself is scalar — scalar children are inlined into
their parent's row and get no node — and exactly one edge per emitted node
(each node is connected to its parent anchor), i.e.
`composites j + scalarTop j` edges in total. -/
theorem c2_node_and_edge_counts :
    ∀ j : Json,
      countTableNodes (_to_dot "root" j 0).2 = composites j ∧
      countScalarNodes (_to_dot "root" j 0).2 = scalarTop j ∧
      countEdges (_to_dot "root" j 0).2 = composites j + scalarTop j := by
  intro j
  obtain ⟨h1, h2, h3, h4, h5⟩ := toDot_shape "root" j 0
  exact ⟨h4, h5, by rw [h3, nNodes]⟩

/-- C2, refuted as stated: the build over `[1]` contains one scalar value
but emits zero scalar label nodes — the scalar is inlined into the array
node's row, so there is not "exactly one label node per scalar value". -/
theorem c2_counterexample :
    countScalarNodes (_to_dot "root" (Json.arr [Json.num 1]) 0).2 = 0 ∧
    scalars (Json.arr [Json.num 1]) = 1 := by
  constructor
  · have h : _to_dot "root" (Json.arr [Json.num 1]) 0
        = (0, [Stmt.nodeTable "N0000" true [Row.mk "0" "1"], Stmt.edge "root" "N0000"]) := by
      simp [_to_dot, toDotItems, isComposite, cellFor, pyStr, intStr, _next, natStr]
      decide
    rw [h]
    decide
  · simp [scalars, scalarsL]

/-- C3: every key and scalar string value is rendered through
`escape` (= `html.escape`); for any string — in particular one containing
`<`, `>`, `&` or `"` — the emitted cell text has no unescaped occurrence of
a metacharacter (`wellEscaped`) and decoding the escapes restores the
original string. -/
theorem c3_escaping_roundtrip :
    ∀ s : String,
      (s.data.any fun c => c == '<' || c == '>' || c == '&' || c == '"') = true →
      cellFor (Json.str s) = escape s ∧
      wellEscaped (escape s) = true ∧
      unescape (escape s) = s := by
  intro s _
  exact ⟨rfl, wellEscaped_escape s, unescape_escape s⟩

/-- Witness for C3 at a concrete adversarial string. -/
theorem c3_escaping_roundtrip_witness :
    cellFor (Json.str "a<b&\"") = escape "a<b&\"" ∧
    wellEscaped (escape "a<b&\"") = true ∧
    unescape (escape "a<b&\"") = "a<b&\"" :=
  c3_escaping_roundtrip "a<b&\"" (by decide)

/-- C4: the empty array and the empty object each produce exactly one table
node whose rendering is the single blank spanning row
`<TR><TD COLSPAN="2">&nbsp;</TD></TR>`, one incoming edge from the parent
anchor, and no edges leaving the node or any of its ports. -/
theorem c4_empty_containers :
    _to_dot "root" (Json.arr []) 0
      = (0, [Stmt.nodeTable "N0000" true [], Stmt.edge "root" "N0000"]) ∧
    _to_dot "root" (Json.obj []) 0
      = (0, [Stmt.nodeTable "N0000" false [], Stmt.edge "root" "N0000"]) ∧
    render (Stmt.nodeTable "N0000" true [])
      = "N0000 [label=<\n<TABLE BORDER=\"0\" CELLBORDER=\"1\" CELLSPACING=\"0\">\n<TR><TD COLSPAN=\"2\">&nbsp;</TD></TR>\n</TABLE>>];\n" ∧
    render (Stmt.nodeTable "N0000" false [])
      = "N0000 [label=<\n<TABLE BORDER=\"0\" CELLBORDER=\"1\" CELLSPACING=\"0\">\n<TR><TD COLSPAN=\"2\">&nbsp;</TD></TR>\n</TABLE>>];\n" ∧
    edgesFrom "N0000" (_to_dot "root" (Json.arr []) 0).2 = [] ∧
    edgesFrom "N0000" (_to_dot "root" (Json.obj []) 0).2 = [] := by
  have ha : _to_dot "root" (Json.arr []) 0
      = (0, [Stmt.nodeTable "N0000" true [], Stmt.edge "root" "N0000"]) := by
    simp [_to_dot, toDotItems, _next]
    decide
  have hb : _to_dot "root" (Json.obj []) 0
      = (0, [Stmt.nodeTable "N0000" false [], Stmt.edge "root" "N0000"]) := by
    simp [_to_dot, toDotFields, _next]
    decide
  refine ⟨ha, hb, by decide, by decide, ?_, ?_⟩
  · rw [ha]; decide
  · rw [hb]; decide

/-- C5 (amended): scalars are rendered with Python's default `str`
conversion, so booleans appear as `True`/`False` and null as `None` (not
`true`/`false`/`null`): the input `{"x": null}` yields one table node with
the single row `x → "None"` and no child edge. -/
theorem c5_scalar_rendering :
    _to_dot "root" (Json.obj [("x", Json.null)]) 0
      = (0, [Stmt.nodeTable "N0000" false [Row.mk "x" "None"], Stmt.edge "root" "N0000"]) ∧
    pyStr Json.null = "None" ∧
    pyStr (Json.bool true) = "True" ∧
    pyStr (Json.bool false) = "False" ∧
    pyStr (Json.num 7) = "7" ∧
    edgesFrom "N0000" (_to_dot "root" (Json.obj [("x", Json.null)]) 0).2 = [] := by
  have h : _to_dot "root" (Json.obj [("x", Json.null)]) 0
      = (0, [Stmt.nodeTable "N0000" false [Row.mk "x" "None"], Stmt.edge "root" "N0000"]) := by
    simp [_to_dot, toDotFields, _next, cellFor, isComposite, pyStr, escape, escL, escChar]
    decide
  refine ⟨h, rfl, rfl, rfl, by decide, ?_⟩
  rw [h]; decide

/-- C5, refuted as stated: for input `{"x": null}` the emitted cell text is
`None` — Python's `str(None)` — which is neither the literal `null` nor
empty, contradicting the claimed rendering. -/
theorem c5_counterexample :
    cellsOf (_to_dot "root" (Json.obj [("x", Json.null)]) 0).2 = ["None"] ∧
    ("None" : String) ≠ "null" ∧
    ("None" : String) ≠ "" := by
  have h : _to_dot "root" (Json.obj [("x", Json.null)]) 0
      = (0, [Stmt.nodeTable "N0000" false [Row.mk "x" "None"], Stmt.edge "root" "N0000"]) := by
    simp [_to_dot, toDotFields, _next, cellFor, isComposite, pyStr, escape, escL, escChar]
    decide
  refine ⟨?_, by decide, by decide⟩
  rw [h]; decide

/-- C6: on input `{"a":{"b":1}}` the (spec-modelled) path-graph builder
produces exactly the nodes `root`, `root.a`, `root.a.b`, `root.a.b:1` and
exactly the edges root→root.a, root.a→root.a.b, root.a.b→root.a.b:1. -/
theorem c6_build_path_graph_scenario :
    (build_path_graph (Json.obj [("a", Json.obj [("b", Json.num 1)])])).1.map Prod.fst
      = ["root", "root.a", "root.a.b", "root.a.b:1"] ∧
    (build_path_graph (Json.obj [("a", Json.obj [("b", Json.num 1)])])).2
      = [("root", "root.a"), ("root.a", "root.a.b"), ("root.a.b", "root.a.b:1")] := by
  have h : build_path_graph (Json.obj [("a", Json.obj [("b", Json.num 1)])])
      = ([("root", "root"), ("root.a", "a"), ("root.a.b", "b"), ("root.a.b:1", "1")],
         [("root", "root.a"), ("root.a", "root.a.b"), ("root.a.b", "root.a.b:1")]) := by
    simp [build_path_graph, pathWalk, pathFields, pathItems, pyStr, intStr]
    decide
  rw [h]
  exact ⟨rfl, rfl⟩

/-- C7: `_next` renders the counter as `N` plus the counter zero-padded to
four digits, widening to more digits from 10000 on instead of wrapping, and
it never maps two counter values to the same identifier — so well beyond
10000 distinct identifiers are collision-free. -/
theorem c7_next_format :
    (∀ m n : Nat, _next m = _next n ↔ m = n) ∧
    _next 0 = "N0000" ∧
    _next 1 = "N0001" ∧
    _next 42 = "N0042" ∧
    _next 9999 = "N9999" ∧
    _next 10000 = "N10000" ∧
    _next 123456 = "N123456" := by
  refine ⟨fun m n => ⟨fun h => next_injective h, fun h => by rw [h]⟩,
    by decide, by decide, by decide, by decide, by decide, by decide⟩

/-- C8, refuting the claimed guarantee: neither renderer invocation passes a
timeout — `subprocess.run` is called without the `timeout` keyword, so its
recorded timeout is `None` and an unresponsive `dot` process blocks the
request indefinitely rather than being surfaced as a failed request. -/
theorem c8_renderer_invocations_have_no_timeout :
    ∀ png_path svg_path : String,
      (pngRun png_path).timeout = none ∧ (svgRun svg_path).timeout = none := by
  intro p s
  exact ⟨rfl, rfl⟩

/-- C9: `json2graph` interpolates the user-supplied root label verbatim into
the quoted root-label statement of the document — the label sits raw between
`label="` and `"`, and no escaping is applied (the escape function would
have altered an adversarial label, as the second conjunct shows). -/
theorem c9_root_label_verbatim :
    (∀ (j : Json) (root_label : String),
      json2graphDot j root_label
        = (dotHeader ++ "  root [label=\"") ++ root_label
          ++ ("\", shape=circle, fontname=\"" ++ FONT ++ "\"];\n"
              ++ renderStmts (_to_dot "root" j 0).2 ++ "\x7d\n")) ∧
    escape "x\"<y>&" ≠ "x\"<y>&" := by
  constructor
  · intro j root_label
    rw [json2graphDot, rootStmt]
    simp only [String.append_assoc]
  · decide

/-- C10: the walk returns the greatest counter value assigned in its
subtree: entered with counter `idx` it assigns exactly the counters from
`idx` up to the returned value, each children loop threads the returned
value (plus one per composite child) onward, and a whole build assigns
exactly the contiguous counters from `0` to the final return with no
gaps. -/
theorem c10_counter_range_contiguous :
    ∀ (parent : String) (j : Json) (idx : Nat),
      (∀ m : Nat, _next m ∈ nodeNames (_to_dot parent j idx).2
        ↔ idx ≤ m ∧ m ≤ (_to_dot parent j idx).1) ∧
      (∀ (name : String) (items : List Json) (i idx2 : Nat),
        (toDotItems name items i idx2).1 = idx2 + compositesL items) ∧
      (∀ (name : String) (fields : List (String × Json)) (i idx2 : Nat),
        (toDotFields name fields i idx2).1 = idx2 + compositesF fields) ∧
      (∀ m : Nat, _next m ∈ nodeNames (_to_dot "root" j 0).2
        ↔ m ≤ (_to_dot "root" j 0).1) := by
  have main : ∀ (parent : String) (j : Json) (idx : Nat) (m : Nat),
      _next m ∈ nodeNames (_to_dot parent j idx).2
        ↔ idx ≤ m ∧ m ≤ (_to_dot parent j idx).1 := by
    intro parent j idx m
    obtain ⟨h1, h2, h3, h4, h5⟩ := toDot_shape parent j idx
    rw [h2]
    constructor
    · intro hmem
      obtain ⟨b, hb, hfb⟩ := List.mem_map.mp hmem
      obtain rfl : b = m := next_injective hfb
      rw [List.mem_range'_1] at hb
      omega
    · intro hm
      refine List.mem_map.mpr ⟨m, ?_, rfl⟩
      rw [List.mem_range'_1]
      omega
  intro parent j idx
  refine ⟨main parent j idx, ?_, ?_, ?_⟩
  · intro name items i idx2
    exact (toDotItems_shape name items i idx2).1
  · intro name fields i idx2
    exact (toDotFields_shape name fields i idx2).1
  · intro m
    rw [main "root" j 0 m]
    omega
